import Mathlib

/-
Verification of the usdinspect core: the composition attribution algorithm of
`PrimLayerStackTable.watch_prim` (src/python/usdinspect/widgets.py), the
display state machine of the values table (src/python/usdinspect/values_table.py),
and the selection-cascade handlers of `UsdInspectApp` (src/python/usdinspect/app.py),
shallowly embedded in Lean.

Python strings that are inspected character by character (row keys, layer
identifiers, spec paths) are embedded as `List Char`; strings that are only
constructed and compared wholesale (column titles, arc labels) stay `String`.
External Scene Engine objects (pxr Usd/Sdf) are modelled as explicit data
carrying exactly the observations the inspected code makes of them.
-/

namespace UsdInspect

/-- Character strings in the Python sense: row keys, identifiers, paths. -/
abbrev Str := List Char

/-- A Python value as it flows through the tables: None, scalars, Sdf paths and
Vt arrays.  Truthiness below follows Python semantics. -/
inductive Value where
  | vnone
  | vint (n : Int)
  | vbool (b : Bool)
  | vstring (s : Str)
  | vpath (p : Str)
  | varr (elems : List Value)

/-- Python truthiness (`if value:`) for the embedded values: None, 0, False,
the empty string and the empty array are falsy. -/
def Value.truthy : Value → Bool
  | .vnone => false
  | .vint n => n != 0
  | .vbool b => b
  | .vstring s => !s.isEmpty
  | .vpath _ => true
  | .varr l => !l.isEmpty

/-- Elements iterated by `enumerate(value)`; only array values are enumerated
by the inspected code (the engine resolves array-typed attributes to arrays). -/
def Value.elems : Value → List Value
  | .varr l => l
  | _ => []

/-- An Sdf.Layer as observed by the code: its resolved identifier, its display
name, and its authored time samples per spec path (GetNumTimeSamplesForPath /
ListTimeSamplesForPath / QueryTimeSample).  Sdf layer handles compare equal
exactly when they are the same layer, i.e. when their identifiers coincide, so
layer equality is embedded as identifier equality. -/
structure Layer where
  identifier : Str
  displayName : String
  timeSamples : List (Str × List (Int × Value))

/-- Time samples the layer records for a spec path, as ordered
(frame, value) pairs; empty when none are authored. -/
def Layer.samplesFor (l : Layer) (path : Str) : List (Int × Value) :=
  (l.timeSamples.lookup path).getD []

/-- An Sdf.AttributeSpec: its path within the layer, its authored default
(`Value.vnone` when no default is authored) and whether its declared type name
is an array type. -/
structure AttributeSpec where
  path : Str
  defaultValue : Value
  typeIsArray : Bool

/-- An Sdf.PropertySpec handle: an attribute spec (which knows its owning
layer), a relationship spec with its explicit target paths, or an
invalid/None handle (falsy in Python). -/
inductive PropertySpec where
  | attrSpec (layer : Layer) (spec : AttributeSpec)
  | relSpec (explicitTargets : List Str)
  | invalid

/-- A Usd.Attribute as observed by the code: `Get(frame)` resolution data and
the array-ness of its type name. -/
structure Attribute where
  timeSamples : List (Int × Value)
  defaultValue : Value
  typeIsArray : Bool

/-- Models Usd.Attribute.Get(frame) (external Scene Engine, spec section 6):
the sample authored at the frame if any, else the resolved default;
`Value.vnone` models Python None. -/
def Attribute.get (a : Attribute) (frame : Int) : Value :=
  (a.timeSamples.lookup frame).getD a.defaultValue

/-- A Usd.Property handle: an attribute, a relationship with its resolved
targets (GetTargets), or an invalid/None handle (falsy in Python). -/
inductive UsdProperty where
  | attr (a : Attribute)
  | rel (targets : List Str)
  | invalid

/-- An Sdf.PrimSpec: one layer's opinion about one prim, with its owning
layer, its path in that layer, and its properties keyed by name. -/
structure PrimSpec where
  layer : Layer
  path : Str
  properties : List (Str × PropertySpec)

/-- A composition arc from Usd.PrimCompositionQuery: the display name of its
arc type and its target layer. -/
structure CompositionArc where
  displayName : String
  targetLayer : Layer

/-- A composed Usd.Prim as observed by the handlers: validity (an invalid prim
handle is falsy), its prim stack (strongest first), its composition arcs
(strongest first) and its properties keyed by name. -/
structure Prim where
  valid : Bool
  primStack : List PrimSpec
  compositionArcs : List CompositionArc
  properties : List (Str × UsdProperty)

/-- One contribution row produced by the attribution loop: the contributing
layer, the spec path within it, and the composition-arc classification. -/
structure ContributionRecord where
  layer : Layer
  specPath : Str
  arcLabel : String

/-- The two-pointer merge loop of `PrimLayerStackTable.watch_prim`
(widgets.py): walk the prim stack, matching each spec's layer against the
composition arc at `current_arc_index`; on a match the record is labelled with
the arc type's display name and the index advances, otherwise the record is
labelled "Sublayer".  Returns the emitted records together with the final
value of `current_arc_index`. -/
def attributeAux (arcs : List CompositionArc) :
    List PrimSpec → Nat → List ContributionRecord × Nat
  | [], j => ([], j)
  | spec :: rest, j =>
    match arcs[j]? with
    | some arc =>
      if arc.targetLayer.identifier = spec.layer.identifier then
        (⟨spec.layer, spec.path, arc.displayName⟩ :: (attributeAux arcs rest (j + 1)).1,
          (attributeAux arcs rest (j + 1)).2)
      else
        (⟨spec.layer, spec.path, "Sublayer"⟩ :: (attributeAux arcs rest j).1,
          (attributeAux arcs rest j).2)
    | none =>
      (⟨spec.layer, spec.path, "Sublayer"⟩ :: (attributeAux arcs rest j).1,
        (attributeAux arcs rest j).2)

/-- The composition attribution: contribution records for a prim stack and
arc list, both strongest first (the attributor output; the synthetic
"Composed" row the UI prepends is added by `watchPrimRows` below). -/
def attributePrim (primStack : List PrimSpec) (arcs : List CompositionArc) :
    List ContributionRecord :=
  (attributeAux arcs primStack 0).1

/-- The row key `watch_prim` hands to the DataTable for a contribution
record: layer identifier and spec path joined by "|". -/
def ContributionRecord.rowKey (r : ContributionRecord) : Str :=
  r.layer.identifier ++ ['|'] ++ r.specPath

/-- One rendered row of the PrimLayerStackTable: the layer cell text, the
composition-arc cell text, and the row key. -/
structure LayerRow where
  layerCell : String
  arcCell : String
  key : Str

/-- The full row population of `watch_prim` for a (truthy) prim: a synthetic
"Composed" row followed by one row per contribution record. -/
def watchPrimRows (p : Prim) : List LayerRow :=
  ⟨"Composed", "", "composed".toList⟩ ::
    (attributePrim p.primStack p.compositionArcs).map
      (fun r => ⟨r.layer.displayName, r.arcLabel, r.rowKey⟩)

/-- Entry guard of `PrimLayerStackTable.watch_prim`: a falsy prim (None or invalid)
leaves the table untouched (`none`); otherwise the rows are repopulated. -/
def watchPrim : Option Prim → Option (List LayerRow)
  | Option.none => Option.none
  | some p => if p.valid = false then Option.none else some (watchPrimRows p)

/-- The observable contents of the ValuesTable DataTable: its column titles,
its rows of cells, the bound frame reactive, and whether the cursor type was
set to row mode. -/
structure UsdTable where
  columns : List String
  rows : List (List Value)
  frame : Int
  cursorTypeRow : Bool

/-- DataTable.clear(): removes the rows, keeps the columns. -/
def UsdTable.clear (t : UsdTable) : UsdTable := { t with rows := [] }

/-- ValuesTableDisplayState.enter: clear the rows, then remove every column
(values_table.py, the full clear-then-populate transition contract). -/
def enterState (t : UsdTable) : UsdTable := { t with rows := [], columns := [] }

/-- The `for index, item in enumerate(value): table.add_row(index, item)`
loop: one (index, element) row per element, in order. -/
def enumRows (l : List Value) : List (List Value) :=
  l.enum.map (fun p => [Value.vint (Int.ofNat p.1), p.2])

/-- The rendering tail shared verbatim by `PropertyValueDisplayState.apply`
and `PropertySpecValueDisplayState.apply`: a falsy value adds only a
"No Value" column; an array value adds "Index"/"Value" columns and one
indexed row per element; otherwise a single "Value" column with one row. -/
def renderValue (t : UsdTable) (value : Value) (isArray : Bool) : UsdTable :=
  if value.truthy = false then
    { t with columns := t.columns ++ ["No Value"] }
  else if isArray then
    { t with columns := t.columns ++ ["Index", "Value"],
             rows := t.rows ++ enumRows value.elems }
  else
    { t with columns := t.columns ++ ["Value"], rows := t.rows ++ [[value]] }

/-- Models `PropertyValueDisplayState.apply`: a falsy property handle leaves the
table untouched; an attribute resolves `Get(table.frame)` and is an array
exactly when the value is truthy and its type name is an array type; a
relationship uses its target list, marked as an array when non-empty. -/
def applyPropertyValue : UsdProperty → UsdTable → UsdTable
  | .invalid, t => t
  | .attr a, t =>
    renderValue t.clear (a.get t.frame) ((a.get t.frame).truthy && a.typeIsArray)
  | .rel targets, t =>
    renderValue t.clear (.varr (targets.map Value.vpath))
      (Value.varr (targets.map Value.vpath)).truthy

/-- Models `PropertySpecValueDisplayState.apply`: a falsy spec handle leaves the
table untouched; an attribute spec whose owning layer records time samples
for its path renders the ordered sequence of all sample values as an array,
otherwise its authored default (an array exactly when the default is truthy
and the declared type is an array type); a relationship spec renders its
explicit target list, always marked as an array. -/
def applyPropertySpecValue : PropertySpec → UsdTable → UsdTable
  | .invalid, t => t
  | .attrSpec layer sp, t =>
    if (layer.samplesFor sp.path).length != 0 then
      renderValue t.clear (.varr ((layer.samplesFor sp.path).map Prod.snd)) true
    else
      renderValue t.clear sp.defaultValue (sp.defaultValue.truthy && sp.typeIsArray)
  | .relSpec targets, t =>
    renderValue t.clear (.varr (targets.map Value.vpath)) true

/-- Models `MetadatumValueDisplayState.apply`: a single "Value" column and a single
row holding the already-resolved value. -/
def applyMetadatum (v : Value) (t : UsdTable) : UsdTable :=
  { t with columns := t.columns ++ ["Value"], rows := t.rows ++ [[v]] }

/-- Models `NoValueDisplayState.apply`: a single "No Value" column (no row is
added) and the cursor type set to row mode. -/
def applyNoValue (t : UsdTable) : UsdTable :=
  { t with columns := t.columns ++ ["No Value"], cursorTypeRow := true }

/-- The display states of the ValuesTable, one per state class in
values_table.py. -/
inductive DisplayState where
  | noValue
  | propertyValue (usdProperty : UsdProperty)
  | propertySpecValue (propSpec : PropertySpec)
  | metadatumValue (value : Value)

/-- The `frame_dependent` class flag: True on PropertyValueDisplayState only;
the base class default False is inherited by every other state. -/
def DisplayState.frameDependent : DisplayState → Bool
  | .noValue => false
  | .propertyValue _ => true
  | .propertySpecValue _ => false
  | .metadatumValue _ => false

/-- Per-state `apply` dispatch. -/
def DisplayState.apply : DisplayState → UsdTable → UsdTable
  | .noValue, t => applyNoValue t
  | .propertyValue p, t => applyPropertyValue p t
  | .propertySpecValue s, t => applyPropertySpecValue s t
  | .metadatumValue v, t => applyMetadatum v t

/-- Models `ValuesTable.watch_state`: entering a state enters (full clear) then
applies it. -/
def watchState (st : DisplayState) (t : UsdTable) : UsdTable :=
  st.apply (enterState t)

/-- Models `ValuesTable.watch_frame`: when the frame changes, the current state is
re-entered and re-applied exactly when it is frame dependent. -/
def watchFrame (st : DisplayState) (t : UsdTable) : UsdTable :=
  if st.frameDependent then st.apply (enterState t) else t

/-- Usd.Prim.GetProperty(name): the property of that name, or an
invalid/falsy handle when absent. -/
def Prim.getProperty (p : Prim) (name : Str) : UsdProperty :=
  (p.properties.lookup name).getD .invalid

/-- Models Sdf.PrimSpec.GetPropertyAtPath (external Scene Engine): the lookup
takes a RELATIVE property path, which must be of the form ".name"; any other
path shape finds nothing and yields an invalid/None handle (the relative
property path syntax of SdfPath, spec section 4.2 edge case). -/
def PrimSpec.getPropertyAtPath (ps : PrimSpec) (path : Str) : PropertySpec :=
  match path with
  | '.' :: name => (ps.properties.lookup name).getD .invalid
  | _ => .invalid

/-- The data object bound to the PrimDataTabs / properties table: nothing, a
composed prim, or one layer's prim spec. -/
inductive DataObject where
  | none
  | prim (p : Prim)
  | primSpec (ps : PrimSpec)

/-- Python truthiness of the bound data object (`if not prim:`): None is
falsy, a prim handle is falsy when invalid, a prim spec handle is truthy. -/
def DataObject.truthy : DataObject → Bool
  | .none => false
  | .prim p => p.valid
  | .primSpec _ => true

/-- Models `UsdInspectApp._property_highlighted`: a missing row key or falsy data
object selects NoValue; a composed prim looks its property up by name
(unprefixed) and feeds it to PropertyValue; a prim spec looks it up by the
"."-prefixed relative path and feeds it to PropertySpecValue. -/
def propertyHighlighted (dataObject : DataObject) (rowKey : Option Str) :
    DisplayState :=
  match rowKey with
  | Option.none => .noValue
  | some key =>
    if dataObject.truthy = false then .noValue
    else
      match dataObject with
      | .none => .noValue
      | .prim p => .propertyValue (p.getProperty key)
      | .primSpec ps => .propertySpecValue (ps.getPropertyAtPath ('.' :: key))

/-- Python `str.split("|")`: `"" -> [""]`, `"a|b" -> ["a","b"]`,
`"a||b" -> ["a","","b"]` — always one more part than separator occurrences. -/
def splitBar : Str → List Str
  | [] => [[]]
  | c :: rest =>
    match splitBar rest with
    | [] => [[]]
    | cur :: parts => if c = '|' then [] :: cur :: parts else (c :: cur) :: parts

/-- The loaded Sdf layers reachable through Sdf.Layer.FindOrOpen, keyed by
identifier; each layer maps prim paths to its prim specs
(Sdf.Layer.GetPrimAtPath). -/
structure SdfEnv where
  layers : List (Str × List (Str × PrimSpec))

/-- Outcome of `UsdInspectApp._layer_highlighted` on the PrimDataTabs: no
update, the composed prim assigned, or a prim spec (possibly None, which the
downstream `watch_prim` guard then skips) assigned. -/
inductive LayerSelOutcome where
  | skip
  | setPrim (p : Prim)
  | setPrimSpec (ps : Option PrimSpec)

/-- Models `UsdInspectApp._layer_highlighted` (app.py): a falsy row key returns
early; the "composed" key re-assigns the prim under the stage-tree cursor;
any other key is split on "|" into exactly (layer identifier, spec path) —
a key that does not yield exactly two parts raises ValueError at unpacking,
and a layer FindOrOpen cannot find raises AttributeError (GetPrimAtPath is
called on None); a missing prim spec is assigned as None.  `Except.error`
embeds a raised Python exception. -/
def layerHighlighted (env : SdfEnv) (stageCursorPrim : Option Prim)
    (rowKey : Option Str) : Except String LayerSelOutcome :=
  match rowKey with
  | Option.none => .ok .skip
  | some key =>
    if key = [] then .ok .skip
    else if key = "composed".toList then
      match stageCursorPrim with
      | Option.none => .ok .skip
      | some p => .ok (.setPrim p)
    else
      match splitBar key with
      | [layerPath, primSpecPath] =>
        match env.layers.lookup layerPath with
        | Option.none => .error "AttributeError"
        | some specs => .ok (.setPrimSpec (specs.lookup primSpecPath))
      | _ => .error "ValueError"

/-- Models `PrimLayerStackTable._handle_row_highlighted` (widgets.py): a falsy row
key returns without posting; otherwise `current_spec` is resolved the same
way (None for the "composed" row) and a LayerChanged message is posted.  The
result `some cs` means a message was posted with `current_spec = cs`. -/
def handleRowHighlighted (env : SdfEnv) (rowKey : Option Str) :
    Except String (Option (Option PrimSpec)) :=
  match rowKey with
  | Option.none => .ok Option.none
  | some key =>
    if key = [] then .ok Option.none
    else if key ≠ "composed".toList then
      match splitBar key with
      | [layerPath, primSpecPath] =>
        match env.layers.lookup layerPath with
        | Option.none => .error "AttributeError"
        | some specs => .ok (some (specs.lookup primSpecPath))
      | _ => .error "ValueError"
    else .ok (some Option.none)

/-- Models `Timeline._frame_changed` (widgets.py): a falsy slider value (0) returns
early — no FrameChanged message is posted; otherwise the message carries the
frame.  The result is the posted frame, if any. -/
def timelineFrameChanged (sliderValue : Int) : Option Int :=
  if sliderValue = 0 then Option.none else some sliderValue

/-- Models `UsdInspectApp._frame_changed` (app.py) plus the ValuesTable.frame
reactive: a falsy frame (0) returns early; otherwise `table.frame` is
assigned, and the reactive fires `watch_frame` when the value actually
changed. -/
def appFrameChanged (st : DisplayState) (t : UsdTable) (frame : Int) :
    UsdTable :=
  if frame = 0 then t
  else if t.frame = frame then t
  else watchFrame st { t with frame := frame }

/-- A full timeline event: the slider handler, then the app handler on the
posted message, if one was posted. -/
def frameEvent (st : DisplayState) (t : UsdTable) (sliderValue : Int) :
    UsdTable :=
  match timelineFrameChanged sliderValue with
  | Option.none => t
  | some f => appFrameChanged st t f

/-! Attribution lemmas (claims about `attributePrim`). -/

lemma attributeAux_cons_hit {arcs : List CompositionArc} {j : Nat}
    {arc : CompositionArc} (spec : PrimSpec) (rest : List PrimSpec)
    (harc : arcs[j]? = some arc)
    (h : arc.targetLayer.identifier = spec.layer.identifier) :
    attributeAux arcs (spec :: rest) j =
      (⟨spec.layer, spec.path, arc.displayName⟩ :: (attributeAux arcs rest (j + 1)).1,
        (attributeAux arcs rest (j + 1)).2) := by
  conv_lhs => rw [attributeAux]
  simp only [harc]
  rw [if_pos h]

lemma attributeAux_cons_miss {arcs : List CompositionArc} {j : Nat}
    {arc : CompositionArc} (spec : PrimSpec) (rest : List PrimSpec)
    (harc : arcs[j]? = some arc)
    (h : arc.targetLayer.identifier ≠ spec.layer.identifier) :
    attributeAux arcs (spec :: rest) j =
      (⟨spec.layer, spec.path, "Sublayer"⟩ :: (attributeAux arcs rest j).1,
        (attributeAux arcs rest j).2) := by
  conv_lhs => rw [attributeAux]
  simp only [harc]
  rw [if_neg h]

lemma attributeAux_cons_none {arcs : List CompositionArc} {j : Nat}
    (spec : PrimSpec) (rest : List PrimSpec) (harc : arcs[j]? = none) :
    attributeAux arcs (spec :: rest) j =
      (⟨spec.layer, spec.path, "Sublayer"⟩ :: (attributeAux arcs rest j).1,
        (attributeAux arcs rest j).2) := by
  conv_lhs => rw [attributeAux]
  simp only [harc]

lemma attributeAux_length (arcs : List CompositionArc) :
    ∀ (stack : List PrimSpec) (j : Nat),
      ((attributeAux arcs stack j).1).length = stack.length := by
  intro stack
  induction stack with
  | nil => intro j; rfl
  | cons spec rest ih =>
    intro j
    cases harc : arcs[j]? with
    | none => rw [attributeAux_cons_none spec rest harc]; simp [ih]
    | some arc =>
      by_cases h : arc.targetLayer.identifier = spec.layer.identifier
      · rw [attributeAux_cons_hit spec rest harc h]; simp [ih]
      · rw [attributeAux_cons_miss spec rest harc h]; simp [ih]

lemma attributeAux_layer_path (arcs : List CompositionArc) :
    ∀ (stack : List PrimSpec) (j i : Nat),
      (((attributeAux arcs stack j).1)[i]?).map (fun r => (r.layer, r.specPath)) =
        (stack[i]?).map (fun s => (s.layer, s.path)) := by
  intro stack
  induction stack with
  | nil => intro j i; rfl
  | cons spec rest ih =>
    intro j i
    cases harc : arcs[j]? with
    | none =>
      rw [attributeAux_cons_none spec rest harc]
      cases i with
      | zero => simp
      | succ k => simpa using ih j k
    | some arc =>
      by_cases h : arc.targetLayer.identifier = spec.layer.identifier
      · rw [attributeAux_cons_hit spec rest harc h]
        cases i with
        | zero => simp
        | succ k => simpa using ih (j + 1) k
      · rw [attributeAux_cons_miss spec rest harc h]
        cases i with
        | zero => simp
        | succ k => simpa using ih j k

lemma attributeAux_label_mem (arcs : List CompositionArc) :
    ∀ (stack : List PrimSpec) (j : Nat) (r : ContributionRecord),
      r ∈ (attributeAux arcs stack j).1 →
        r.arcLabel = "Sublayer" ∨ ∃ arc ∈ arcs, r.arcLabel = arc.displayName := by
  intro stack
  induction stack with
  | nil => intro j r hr; simp [attributeAux] at hr
  | cons spec rest ih =>
    intro j r hr
    cases harc : arcs[j]? with
    | none =>
      rw [attributeAux_cons_none spec rest harc] at hr
      simp only [List.mem_cons] at hr
      rcases hr with rfl | hr
      · exact Or.inl rfl
      · exact ih j r hr
    | some arc =>
      by_cases h : arc.targetLayer.identifier = spec.layer.identifier
      · rw [attributeAux_cons_hit spec rest harc h] at hr
        simp only [List.mem_cons] at hr
        rcases hr with rfl | hr
        · exact Or.inr ⟨arc, List.getElem?_mem harc, rfl⟩
        · exact ih (j + 1) r hr
      · rw [attributeAux_cons_miss spec rest harc h] at hr
        simp only [List.mem_cons] at hr
        rcases hr with rfl | hr
        · exact Or.inl rfl
        · exact ih j r hr

lemma attributeAux_filter_labels (arcs : List CompositionArc)
    (hno : ∀ arc ∈ arcs, arc.displayName ≠ "Sublayer") :
    ∀ (stack : List PrimSpec) (j : Nat),
      ∃ k, (((attributeAux arcs stack j).1).map ContributionRecord.arcLabel).filter
            (fun l => l != "Sublayer") =
          ((arcs.drop j).take k).map CompositionArc.displayName := by
  intro stack
  induction stack with
  | nil => intro j; exact ⟨0, by simp [attributeAux]⟩
  | cons spec rest ih =>
    intro j
    cases harc : arcs[j]? with
    | none =>
      obtain ⟨k, hk⟩ := ih j
      rw [attributeAux_cons_none spec rest harc]
      exact ⟨k, by simp [hk]⟩
    | some arc =>
      by_cases h : arc.targetLayer.identifier = spec.layer.identifier
      · obtain ⟨k, hk⟩ := ih (j + 1)
        rw [attributeAux_cons_hit spec rest harc h]
        refine ⟨k + 1, ?_⟩
        have hdrop : arcs.drop j = arc :: arcs.drop (j + 1) := by
          obtain ⟨hlt, hget⟩ := List.getElem?_eq_some.mp harc
          rw [List.drop_eq_getElem_cons hlt, hget]
        have hne : (arc.displayName != "Sublayer") = true := by
          simpa using hno arc (List.getElem?_mem harc)
        simp [hdrop, List.filter_cons, hne, hk]
      · obtain ⟨k, hk⟩ := ih j
        rw [attributeAux_cons_miss spec rest harc h]
        exact ⟨k, by simp [hk]⟩

/-- C1: for a prim with a non-empty PrimSpec stack, attribution emits exactly
one contribution record per PrimSpec, in the stack's strongest-to-weakest
order: the record count equals the stack length, and the i-th record's
(layer, spec path) equals the i-th PrimSpec's (layer, path). -/
theorem attribution_one_record_per_spec
    (stack : List PrimSpec) (arcs : List CompositionArc) (hne : stack ≠ []) :
    (attributePrim stack arcs).length = stack.length ∧
      ∀ i : Nat,
        ((attributePrim stack arcs)[i]?).map (fun r => (r.layer, r.specPath)) =
          (stack[i]?).map (fun s => (s.layer, s.path)) :=
  ⟨attributeAux_length arcs stack 0, fun i => attributeAux_layer_path arcs stack 0 i⟩

/-- Concrete fixture data used by witnesses: two layers, the prim specs they
author for one prim, and a reference arc targeting the stronger layer. -/
def layerRoot : Layer := ⟨"root.usd".toList, "root.usd", []⟩

def layerStrong : Layer := ⟨"strong.usd".toList, "strong.usd", []⟩

def specRoot : PrimSpec := ⟨layerRoot, "/World/Light".toList, []⟩

def specStrong : PrimSpec := ⟨layerStrong, "/World/Light".toList, []⟩

def arcRef : CompositionArc := ⟨"reference", layerStrong⟩

theorem attribution_one_record_per_spec_witness :
    (attributePrim [specStrong, specRoot] [arcRef]).length = [specStrong, specRoot].length ∧
      ((attributePrim [specStrong, specRoot] [arcRef])[0]?).map
          (fun r => (r.layer, r.specPath)) = some (specStrong.layer, specStrong.path) := by
  obtain ⟨hlen, hpt⟩ :=
    attribution_one_record_per_spec [specStrong, specRoot] [arcRef]
      (List.cons_ne_nil _ _)
  exact ⟨hlen, by rw [hpt 0]; rfl⟩

/-- C2: every arc label the attribution emits is either the literal
"Sublayer" or the display name of some arc of the prim; the record for the
spec at hand receives the display name of the arc at the current index (and
the index advances) exactly when that index is in bounds and the arc's
target layer equals the spec's layer; and — given that no arc type's display
name is the literal "Sublayer" — the non-Sublayer labels are exactly the
display names of a prefix of the composition-arc list, in the same relative
order. -/
theorem attribution_arc_labels (stack : List PrimSpec)
    (arcs : List CompositionArc)
    (hno : ∀ arc ∈ arcs, arc.displayName ≠ "Sublayer") :
    (∀ r ∈ attributePrim stack arcs,
        r.arcLabel = "Sublayer" ∨ ∃ arc ∈ arcs, r.arcLabel = arc.displayName) ∧
    (∀ (spec : PrimSpec) (rest : List PrimSpec) (j : Nat) (arc : CompositionArc),
        arcs[j]? = some arc →
        arc.targetLayer.identifier = spec.layer.identifier →
        attributeAux arcs (spec :: rest) j =
          (⟨spec.layer, spec.path, arc.displayName⟩ :: (attributeAux arcs rest (j + 1)).1,
            (attributeAux arcs rest (j + 1)).2)) ∧
    (∀ (spec : PrimSpec) (rest : List PrimSpec) (j : Nat),
        (∀ arc : CompositionArc, arcs[j]? = some arc →
            arc.targetLayer.identifier ≠ spec.layer.identifier) →
        attributeAux arcs (spec :: rest) j =
          (⟨spec.layer, spec.path, "Sublayer"⟩ :: (attributeAux arcs rest j).1,
            (attributeAux arcs rest j).2)) ∧
    (∃ k, ((attributePrim stack arcs).map ContributionRecord.arcLabel).filter
          (fun l => l != "Sublayer") =
        (arcs.take k).map CompositionArc.displayName) := by
  refine ⟨fun r hr => attributeAux_label_mem arcs stack 0 r hr, ?_, ?_, ?_⟩
  · intro spec rest j arc harc hmatch
    exact attributeAux_cons_hit spec rest harc hmatch
  · intro spec rest j hnomatch
    cases harc : arcs[j]? with
    | none => exact attributeAux_cons_none spec rest harc
    | some arc => exact attributeAux_cons_miss spec rest harc (hnomatch arc harc)
  · simpa using attributeAux_filter_labels arcs hno stack 0

theorem attribution_arc_labels_witness :
    ∃ k, ((attributePrim [specStrong, specRoot] [arcRef]).map
          ContributionRecord.arcLabel).filter (fun l => l != "Sublayer") =
        ([arcRef].take k).map CompositionArc.displayName :=
  (attribution_arc_labels [specStrong, specRoot] [arcRef]
      (by intro arc harc; rw [List.mem_singleton] at harc; subst harc; decide)).2.2.2

/-! Display-state lemmas: frame preservation and frame (in)dependence. -/

lemma renderValue_frame (t : UsdTable) (v : Value) (ia : Bool) :
    (renderValue t v ia).frame = t.frame := by
  unfold renderValue
  split_ifs <;> rfl

lemma renderValue_mk_congr (c : List String) (r : List (List Value)) (cu : Bool)
    (f1 f2 : Int) (v : Value) (ia : Bool) :
    (renderValue ⟨c, r, f1, cu⟩ v ia).rows = (renderValue ⟨c, r, f2, cu⟩ v ia).rows ∧
    (renderValue ⟨c, r, f1, cu⟩ v ia).columns = (renderValue ⟨c, r, f2, cu⟩ v ia).columns := by
  unfold renderValue
  split_ifs <;> exact ⟨rfl, rfl⟩

lemma applyState_frame (st : DisplayState) (t : UsdTable) :
    (st.apply t).frame = t.frame := by
  cases st with
  | noValue => rfl
  | metadatumValue v => rfl
  | propertyValue p =>
    cases p with
    | invalid => rfl
    | attr a => exact renderValue_frame t.clear _ _
    | rel targets => exact renderValue_frame t.clear _ _
  | propertySpecValue s =>
    cases s with
    | invalid => rfl
    | relSpec targets => exact renderValue_frame t.clear _ _
    | attrSpec layer sp =>
      simp only [DisplayState.apply, applyPropertySpecValue]
      split
      · exact renderValue_frame t.clear _ _
      · exact renderValue_frame t.clear _ _

lemma watchFrame_frame (st : DisplayState) (t : UsdTable) :
    (watchFrame st t).frame = t.frame := by
  unfold watchFrame
  split
  · exact applyState_frame st (enterState t)
  · rfl

lemma applyPropertySpecValue_frame_congr (s : PropertySpec) (c : List String)
    (r : List (List Value)) (cu : Bool) (f1 f2 : Int) :
    (applyPropertySpecValue s ⟨c, r, f1, cu⟩).rows =
        (applyPropertySpecValue s ⟨c, r, f2, cu⟩).rows ∧
    (applyPropertySpecValue s ⟨c, r, f1, cu⟩).columns =
        (applyPropertySpecValue s ⟨c, r, f2, cu⟩).columns := by
  cases s with
  | invalid => exact ⟨rfl, rfl⟩
  | relSpec targets => exact renderValue_mk_congr c [] cu f1 f2 _ _
  | attrSpec layer sp =>
    by_cases hs : (((layer.samplesFor sp.path).length != 0) = true)
    · have e1 : applyPropertySpecValue (.attrSpec layer sp) ⟨c, r, f1, cu⟩ =
          renderValue ⟨c, [], f1, cu⟩
            (.varr ((layer.samplesFor sp.path).map Prod.snd)) true := by
        simp only [applyPropertySpecValue]
        rw [if_pos hs]
        rfl
      have e2 : applyPropertySpecValue (.attrSpec layer sp) ⟨c, r, f2, cu⟩ =
          renderValue ⟨c, [], f2, cu⟩
            (.varr ((layer.samplesFor sp.path).map Prod.snd)) true := by
        simp only [applyPropertySpecValue]
        rw [if_pos hs]
        rfl
      rw [e1, e2]
      exact renderValue_mk_congr c [] cu f1 f2 _ _
    · have e1 : applyPropertySpecValue (.attrSpec layer sp) ⟨c, r, f1, cu⟩ =
          renderValue ⟨c, [], f1, cu⟩ sp.defaultValue
            (sp.defaultValue.truthy && sp.typeIsArray) := by
        simp only [applyPropertySpecValue]
        rw [if_neg hs]
        rfl
      have e2 : applyPropertySpecValue (.attrSpec layer sp) ⟨c, r, f2, cu⟩ =
          renderValue ⟨c, [], f2, cu⟩ sp.defaultValue
            (sp.defaultValue.truthy && sp.typeIsArray) := by
        simp only [applyPropertySpecValue]
        rw [if_neg hs]
        rfl
      rw [e1, e2]
      exact renderValue_mk_congr c [] cu f1 f2 _ _

/-- C5: the frame watcher re-enters and re-applies the current state exactly
when it is frame dependent; PropertyValue is the only frame-dependent state:
its rendered rows can change when only the frame changes (no new selection
event), while PropertySpecValue and MetadatumValue render identical columns
and rows at any two frames. -/
theorem frame_dependence_dispatch :
    ((∀ p, (DisplayState.propertyValue p).frameDependent = true) ∧
      (∀ s, (DisplayState.propertySpecValue s).frameDependent = false) ∧
      (∀ v, (DisplayState.metadatumValue v).frameDependent = false) ∧
      DisplayState.noValue.frameDependent = false) ∧
    ((∀ s t, watchFrame (.propertySpecValue s) t = t) ∧
      (∀ v t, watchFrame (.metadatumValue v) t = t) ∧
      (∀ t, watchFrame .noValue t = t) ∧
      (∀ p t, watchFrame (.propertyValue p) t =
        (DisplayState.propertyValue p).apply (enterState t))) ∧
    (∃ (a : Attribute) (t1 t2 : UsdTable), t1.frame = 1 ∧ t2.frame = 24 ∧
      t1.columns = t2.columns ∧ t1.rows = t2.rows ∧
      t1.cursorTypeRow = t2.cursorTypeRow ∧
      (watchState (.propertyValue (.attr a)) t1).rows ≠
        (watchState (.propertyValue (.attr a)) t2).rows) ∧
    (∀ s c r cu f1 f2,
      (watchState (.propertySpecValue s) ⟨c, r, f1, cu⟩).rows =
        (watchState (.propertySpecValue s) ⟨c, r, f2, cu⟩).rows ∧
      (watchState (.propertySpecValue s) ⟨c, r, f1, cu⟩).columns =
        (watchState (.propertySpecValue s) ⟨c, r, f2, cu⟩).columns) ∧
    (∀ v c r cu f1 f2,
      (watchState (.metadatumValue v) ⟨c, r, f1, cu⟩).rows =
        (watchState (.metadatumValue v) ⟨c, r, f2, cu⟩).rows ∧
      (watchState (.metadatumValue v) ⟨c, r, f1, cu⟩).columns =
        (watchState (.metadatumValue v) ⟨c, r, f2, cu⟩).columns) := by
  refine ⟨⟨fun p => rfl, fun s => rfl, fun v => rfl, rfl⟩,
    ⟨fun s t => rfl, fun v t => rfl, fun t => rfl, fun p t => rfl⟩, ?_, ?_, ?_⟩
  · refine ⟨⟨[(1, .vint 5), (24, .vint 7)], .vnone, false⟩,
      ⟨[], [], 1, false⟩, ⟨[], [], 24, false⟩, rfl, rfl, rfl, rfl, rfl, ?_⟩
    have h1 : (watchState (.propertyValue (.attr
        ⟨[(1, .vint 5), (24, .vint 7)], .vnone, false⟩)) ⟨[], [], 1, false⟩).rows =
        [[Value.vint 5]] := rfl
    have h2 : (watchState (.propertyValue (.attr
        ⟨[(1, .vint 5), (24, .vint 7)], .vnone, false⟩)) ⟨[], [], 24, false⟩).rows =
        [[Value.vint 7]] := rfl
    rw [h1, h2]
    simp
  · intro s c r cu f1 f2
    exact applyPropertySpecValue_frame_congr s [] [] cu f1 f2
  · intro v c r cu f1 f2
    exact ⟨rfl, rfl⟩

/-- C6: in the PropertyValue state an array-typed attribute value renders one
indexed (index, element) row per element in order — the value [1,2,3] renders
exactly the rows (0,1),(1,2),(2,3) — a truthy scalar attribute value renders
exactly one row under a single "Value" column with no index column, and a
relationship's target list is rendered as an indexed sequence even when it
has length 1. -/
theorem property_value_rendering (t : UsdTable) :
    (∀ (a : Attribute) (l : List Value),
      a.get t.frame = .varr l → l ≠ [] → a.typeIsArray = true →
      watchState (.propertyValue (.attr a)) t =
        ⟨["Index", "Value"], enumRows l, t.frame, t.cursorTypeRow⟩) ∧
    (watchState (.propertyValue (.attr ⟨[], .varr [.vint 1, .vint 2, .vint 3], true⟩)) t =
      ⟨["Index", "Value"],
        [[.vint 0, .vint 1], [.vint 1, .vint 2], [.vint 2, .vint 3]],
        t.frame, t.cursorTypeRow⟩) ∧
    (∀ (a : Attribute) (v : Value),
      a.get t.frame = v → v.truthy = true → a.typeIsArray = false →
      watchState (.propertyValue (.attr a)) t =
        ⟨["Value"], [[v]], t.frame, t.cursorTypeRow⟩) ∧
    (∀ targets : List Str, targets ≠ [] →
      watchState (.propertyValue (.rel targets)) t =
        ⟨["Index", "Value"], enumRows (targets.map Value.vpath),
          t.frame, t.cursorTypeRow⟩) ∧
    (∀ p : Str, watchState (.propertyValue (.rel [p])) t =
      ⟨["Index", "Value"], [[.vint 0, .vpath p]], t.frame, t.cursorTypeRow⟩) := by
  refine ⟨?_, rfl, ?_, ?_, fun p => rfl⟩
  · intro a l hget hl hta
    have e : watchState (.propertyValue (.attr a)) t =
        renderValue ⟨[], [], t.frame, t.cursorTypeRow⟩ (a.get t.frame)
          ((a.get t.frame).truthy && a.typeIsArray) := rfl
    rw [e, hget, hta]
    cases l with
    | nil => exact absurd rfl hl
    | cons x xs => simp [renderValue, Value.truthy, Value.elems]
  · intro a v hget hv hta
    have e : watchState (.propertyValue (.attr a)) t =
        renderValue ⟨[], [], t.frame, t.cursorTypeRow⟩ (a.get t.frame)
          ((a.get t.frame).truthy && a.typeIsArray) := rfl
    rw [e, hget, hta, hv]
    simp [renderValue, hv]
  · intro targets htg
    have e : watchState (.propertyValue (.rel targets)) t =
        renderValue ⟨[], [], t.frame, t.cursorTypeRow⟩
          (.varr (targets.map Value.vpath))
          (Value.varr (targets.map Value.vpath)).truthy := rfl
    rw [e]
    cases targets with
    | nil => exact absurd rfl htg
    | cons x xs => simp [renderValue, Value.truthy, Value.elems]

theorem property_value_rendering_witness :
    watchState (.propertyValue (.attr ⟨[], .varr [.vint 7], true⟩)) ⟨[], [], 0, false⟩ =
      ⟨["Index", "Value"], enumRows [.vint 7], 0, false⟩ :=
  (property_value_rendering ⟨[], [], 0, false⟩).1 ⟨[], .varr [.vint 7], true⟩
    [.vint 7] rfl (List.cons_ne_nil _ _) rfl

/-- C7 counterexample: on an empty relationship the display does show the
"No Value" placeholder column, but with ZERO rows — not with exactly one
placeholder row as claimed (`NoValueDisplayState.apply` and the falsy branch
of `PropertyValueDisplayState.apply` add a column and never a row). -/
theorem no_value_placeholder_row_counterexample :
    (watchState (.propertyValue (.rel [])) ⟨["Old"], [[Value.vint 9]], 0, false⟩).columns
        = ["No Value"] ∧
    (watchState (.propertyValue (.rel [])) ⟨["Old"], [[Value.vint 9]], 0, false⟩).rows.length
        ≠ 1 ∧
    (watchState .noValue ⟨["Old"], [[Value.vint 9]], 0, false⟩).rows.length ≠ 1 := by
  refine ⟨rfl, ?_, ?_⟩
  · have h : (watchState (.propertyValue (.rel []))
        ⟨["Old"], [[Value.vint 9]], 0, false⟩).rows.length = 0 := rfl
    rw [h]
    decide
  · have h : (watchState .noValue ⟨["Old"], [[Value.vint 9]], 0, false⟩).rows.length
        = 0 := rfl
    rw [h]
    decide

/-- C7 amended: an empty relationship or a falsy resolved value makes the
display the "No Value" placeholder rendering — a single "No Value" column and
zero rows, hence nothing selectable — the same columns and rows the NoValue
state itself renders (the NoValue state additionally switches the cursor to
row mode); no placeholder row is added. -/
theorem no_value_rendering (t : UsdTable) :
    (watchState .noValue t = ⟨["No Value"], [], t.frame, true⟩) ∧
    (watchState (.propertyValue (.rel [])) t =
      ⟨["No Value"], [], t.frame, t.cursorTypeRow⟩) ∧
    (∀ a : Attribute, (a.get t.frame).truthy = false →
      watchState (.propertyValue (.attr a)) t =
        ⟨["No Value"], [], t.frame, t.cursorTypeRow⟩) ∧
    (∀ a : Attribute, (a.get t.frame).truthy = false →
      (watchState (.propertyValue (.attr a)) t).columns =
          (watchState .noValue t).columns ∧
      (watchState (.propertyValue (.attr a)) t).rows =
          (watchState .noValue t).rows) := by
  have key : ∀ a : Attribute, (a.get t.frame).truthy = false →
      watchState (.propertyValue (.attr a)) t =
        ⟨["No Value"], [], t.frame, t.cursorTypeRow⟩ := by
    intro a hf
    have e : watchState (.propertyValue (.attr a)) t =
        renderValue ⟨[], [], t.frame, t.cursorTypeRow⟩ (a.get t.frame)
          ((a.get t.frame).truthy && a.typeIsArray) := rfl
    rw [e]
    simp [renderValue, hf]
  refine ⟨rfl, rfl, key, fun a hf => ?_⟩
  rw [key a hf]
  exact ⟨rfl, rfl⟩

theorem no_value_rendering_witness :
    watchState (.propertyValue (.attr ⟨[], .vnone, false⟩)) ⟨[], [], 0, false⟩ =
      ⟨["No Value"], [], 0, false⟩ :=
  (no_value_rendering ⟨[], [], 0, false⟩).2.2.1 ⟨[], .vnone, false⟩ rfl

/-- C9: in the PropertyValue state the emptiness test is Python truthiness,
not a presence check — an attribute whose resolved value is falsy (0, False,
"", an empty array) renders the "No Value" placeholder column with no rows
even though a value was resolved, and a truthy resolved value never renders
the placeholder column. -/
theorem truthiness_gates_rendering :
    (∀ (a : Attribute) (t : UsdTable) (v : Value),
      a.get t.frame = v → v.truthy = false →
      (watchState (.propertyValue (.attr a)) t).columns = ["No Value"] ∧
      (watchState (.propertyValue (.attr a)) t).rows = []) ∧
    (∀ (a : Attribute) (t : UsdTable) (v : Value),
      a.get t.frame = v → v.truthy = true →
      (watchState (.propertyValue (.attr a)) t).columns ≠ ["No Value"]) := by
  constructor
  · intro a t v hget hf
    have e : watchState (.propertyValue (.attr a)) t =
        renderValue ⟨[], [], t.frame, t.cursorTypeRow⟩ (a.get t.frame)
          ((a.get t.frame).truthy && a.typeIsArray) := rfl
    rw [e, hget]
    simp [renderValue, hf]
  · intro a t v hget hv
    have e : watchState (.propertyValue (.attr a)) t =
        renderValue ⟨[], [], t.frame, t.cursorTypeRow⟩ (a.get t.frame)
          ((a.get t.frame).truthy && a.typeIsArray) := rfl
    rw [e, hget]
    cases hta : a.typeIsArray <;> simp [renderValue, hv, hta]

theorem truthiness_gates_rendering_witness :
    (watchState (.propertyValue (.attr ⟨[], .vint 0, false⟩)) ⟨[], [], 0, false⟩).columns
        = ["No Value"] ∧
    (watchState (.propertyValue (.attr ⟨[], .vint 0, false⟩)) ⟨[], [], 0, false⟩).rows
        = [] :=
  truthiness_gates_rendering.1 ⟨[], .vint 0, false⟩ ⟨[], [], 0, false⟩ (.vint 0) rfl rfl

/-- C4 counterexample: an attribute spec with no time samples and an authored
default of 0 (falsy) renders the "No Value" placeholder, not its default
value — the rendered rows are empty rather than the claimed single default
row, because the default passes through the Python truthiness test. -/
theorem prop_spec_falsy_default_counterexample :
    (watchState (.propertySpecValue (.attrSpec ⟨"a.usd".toList, "a.usd", []⟩
        ⟨"/P.x".toList, .vint 0, false⟩)) ⟨[], [], 0, false⟩).columns = ["No Value"] ∧
    (watchState (.propertySpecValue (.attrSpec ⟨"a.usd".toList, "a.usd", []⟩
        ⟨"/P.x".toList, .vint 0, false⟩)) ⟨[], [], 0, false⟩).rows ≠
      [[Value.vint 0]] := by
  refine ⟨rfl, ?_⟩
  have h : (watchState (.propertySpecValue (.attrSpec ⟨"a.usd".toList, "a.usd", []⟩
      ⟨"/P.x".toList, .vint 0, false⟩)) ⟨[], [], 0, false⟩).rows = [] := rfl
  rw [h]
  simp

/-- C4 amended: for an attribute spec, if the owning layer records one or
more time samples for the spec's path the rendered value is the ordered
sequence of ALL time-sample values for that path, as an indexed sequence;
otherwise, if the spec's default value is truthy it is rendered — indexed
exactly when the declared type is an array type — while a falsy or absent
default renders the "No Value" placeholder instead. -/
theorem prop_spec_value_rendering (layer : Layer) (sp : AttributeSpec)
    (t : UsdTable) :
    (layer.samplesFor sp.path ≠ [] →
      watchState (.propertySpecValue (.attrSpec layer sp)) t =
        ⟨["Index", "Value"], enumRows ((layer.samplesFor sp.path).map Prod.snd),
          t.frame, t.cursorTypeRow⟩) ∧
    (layer.samplesFor sp.path = [] → sp.defaultValue.truthy = true →
      sp.typeIsArray = true →
      watchState (.propertySpecValue (.attrSpec layer sp)) t =
        ⟨["Index", "Value"], enumRows sp.defaultValue.elems,
          t.frame, t.cursorTypeRow⟩) ∧
    (layer.samplesFor sp.path = [] → sp.defaultValue.truthy = true →
      sp.typeIsArray = false →
      watchState (.propertySpecValue (.attrSpec layer sp)) t =
        ⟨["Value"], [[sp.defaultValue]], t.frame, t.cursorTypeRow⟩) ∧
    (layer.samplesFor sp.path = [] → sp.defaultValue.truthy = false →
      watchState (.propertySpecValue (.attrSpec layer sp)) t =
        ⟨["No Value"], [], t.frame, t.cursorTypeRow⟩) := by
  have e : watchState (.propertySpecValue (.attrSpec layer sp)) t =
      if ((layer.samplesFor sp.path).length != 0) = true then
        renderValue ⟨[], [], t.frame, t.cursorTypeRow⟩
          (.varr ((layer.samplesFor sp.path).map Prod.snd)) true
      else
        renderValue ⟨[], [], t.frame, t.cursorTypeRow⟩ sp.defaultValue
          (sp.defaultValue.truthy && sp.typeIsArray) := rfl
  refine ⟨?_, ?_, ?_, ?_⟩
  · intro hne
    rw [e]
    cases hsam : layer.samplesFor sp.path with
    | nil => exact absurd hsam hne
    | cons x xs =>
      rw [if_pos (by rfl)]
      simp [renderValue, Value.truthy, Value.elems]
  · intro hsam htr hta
    rw [e, if_neg (by rw [hsam]; decide), hta]
    simp [renderValue, htr]
  · intro hsam htr hta
    rw [e, if_neg (by rw [hsam]; decide), hta]
    simp [renderValue, htr]
  · intro hsam hfa
    rw [e, if_neg (by rw [hsam]; decide)]
    simp [renderValue, hfa]

/-- A layer authoring two time samples for the path "/P.x", used by the C4
witness. -/
def layerAnim : Layer :=
  ⟨"anim.usd".toList, "anim.usd",
    [("/P.x".toList, [(1, .vint 10), (2, .vint 20)])]⟩

def specAnim : AttributeSpec := ⟨"/P.x".toList, .vnone, false⟩

theorem prop_spec_value_rendering_witness :
    watchState (.propertySpecValue (.attrSpec layerAnim specAnim)) ⟨[], [], 0, false⟩ =
      ⟨["Index", "Value"], [[.vint 0, .vint 10], [.vint 1, .vint 20]], 0, false⟩ := by
  have hs : layerAnim.samplesFor specAnim.path =
      [(1, Value.vint 10), (2, Value.vint 20)] := rfl
  exact (prop_spec_value_rendering layerAnim specAnim ⟨[], [], 0, false⟩).1
    (by rw [hs]; exact List.cons_ne_nil _ _)

/-- C8: when the bound data object is a PrimSpec, the property name from the
row key is prefixed with the path-separator marker "." before the PrimSpec
property lookup and the result feeds the PropertySpecValue state — the
prefixed lookup is exactly the by-name lookup, while an unprefixed name finds
nothing — and when the data object is a composed Prim the name is looked up
unprefixed and feeds the PropertyValue state. -/
theorem property_lookup_prefixing :
    (∀ (ps : PrimSpec) (key : Str),
      propertyHighlighted (.primSpec ps) (some key) =
        .propertySpecValue (ps.getPropertyAtPath ('.' :: key))) ∧
    (∀ (ps : PrimSpec) (key : Str),
      ps.getPropertyAtPath ('.' :: key) =
        (ps.properties.lookup key).getD .invalid) ∧
    (∀ (ps : PrimSpec) (c : Char) (rest : Str), c ≠ '.' →
      ps.getPropertyAtPath (c :: rest) = .invalid) ∧
    (∀ (p : Prim) (key : Str), p.valid = true →
      propertyHighlighted (.prim p) (some key) =
        .propertyValue (p.getProperty key)) := by
  refine ⟨fun ps key => rfl, fun ps key => rfl, ?_, ?_⟩
  · intro ps c rest hc
    unfold PrimSpec.getPropertyAtPath
    split
    · next name heq =>
      injection heq with h1 h2
      exact absurd h1 hc
    · rfl
  · intro p key hv
    simp [propertyHighlighted, DataObject.truthy, hv]

theorem property_lookup_prefixing_witness :
    propertyHighlighted (.prim ⟨true, [], [], []⟩) (some "radius".toList) =
      .propertyValue ((Prim.mk true [] [] []).getProperty "radius".toList) :=
  property_lookup_prefixing.2.2.2 ⟨true, [], [], []⟩ "radius".toList rfl

/-- C3 counterexample: a malformed row key — one that does not split into a
(layer identifier, spec path) pair on "|" — makes both row-highlight handlers
raise (ValueError at tuple unpacking) instead of transitioning to NoValue or
skipping the update. -/
theorem layer_highlighted_malformed_raises :
    layerHighlighted ⟨[]⟩ Option.none (some "badkey".toList) = .error "ValueError" ∧
    handleRowHighlighted ⟨[]⟩ (some "badkey".toList) = .error "ValueError" :=
  ⟨rfl, rfl⟩

/-- C3 amended: in both row-highlight handlers (the app's
`_layer_highlighted` and the widget's `_handle_row_highlighted`), a missing
or empty row key skips the update, and a well-formed key whose prim-spec
path does not resolve assigns/posts None (which the downstream watcher
skips); but a row key that does not split into exactly two parts on "|"
raises ValueError, and a layer that FindOrOpen cannot resolve raises
AttributeError — neither failure transitions the display to NoValue. -/
theorem layer_row_selection_error_behavior (env : SdfEnv) (cursor : Option Prim) :
    (layerHighlighted env cursor Option.none = .ok .skip) ∧
    (layerHighlighted env cursor (some []) = .ok .skip) ∧
    (∀ key : Str, key ≠ [] → key ≠ "composed".toList → (splitBar key).length ≠ 2 →
      layerHighlighted env cursor (some key) = .error "ValueError") ∧
    (∀ (key lp pp : Str), key ≠ "composed".toList → splitBar key = [lp, pp] →
      env.layers.lookup lp = Option.none →
      layerHighlighted env cursor (some key) = .error "AttributeError") ∧
    (∀ (key lp pp : Str) (specs : List (Str × PrimSpec)),
      key ≠ "composed".toList → splitBar key = [lp, pp] →
      env.layers.lookup lp = some specs → specs.lookup pp = Option.none →
      layerHighlighted env cursor (some key) = .ok (.setPrimSpec Option.none)) ∧
    (handleRowHighlighted env Option.none = .ok Option.none) ∧
    (handleRowHighlighted env (some []) = .ok Option.none) ∧
    (∀ key : Str, key ≠ [] → key ≠ "composed".toList → (splitBar key).length ≠ 2 →
      handleRowHighlighted env (some key) = .error "ValueError") ∧
    (∀ (key lp pp : Str), key ≠ "composed".toList → splitBar key = [lp, pp] →
      env.layers.lookup lp = Option.none →
      handleRowHighlighted env (some key) = .error "AttributeError") ∧
    (∀ (key lp pp : Str) (specs : List (Str × PrimSpec)),
      key ≠ "composed".toList → splitBar key = [lp, pp] →
      env.layers.lookup lp = some specs → specs.lookup pp = Option.none →
      handleRowHighlighted env (some key) = .ok (some Option.none)) := by
  have hnil : ∀ key : Str, splitBar key ≠ [] := by
    intro key
    cases key with
    | nil => simp [splitBar]
    | cons c rest =>
      rw [splitBar]
      rcases hs : splitBar rest with _ | ⟨cur, parts⟩
      · simp
      · by_cases hc : c = '|' <;> simp [hc]
  refine ⟨rfl, rfl, ?_, ?_, ?_, rfl, rfl, ?_, ?_, ?_⟩
  · intro key h1 h2 hlen
    simp only [layerHighlighted]
    rw [if_neg h1, if_neg h2]
    rcases hsp : splitBar key with _ | ⟨a, _ | ⟨b, _ | ⟨c, rest⟩⟩⟩
    · exact absurd hsp (hnil key)
    · rfl
    · exact absurd (by rw [hsp]; rfl : (splitBar key).length = 2) hlen
    · rfl
  · intro key lp pp h2 hsplit hlook
    have h1 : key ≠ [] := by
      intro h
      subst h
      simp [splitBar] at hsplit
    simp only [layerHighlighted]
    rw [if_neg h1, if_neg h2, hsplit]
    dsimp only
    rw [hlook]
  · intro key lp pp specs h2 hsplit hlook hspec
    have h1 : key ≠ [] := by
      intro h
      subst h
      simp [splitBar] at hsplit
    simp only [layerHighlighted]
    rw [if_neg h1, if_neg h2, hsplit]
    dsimp only
    rw [hlook]
    dsimp only
    rw [hspec]
  · intro key h1 h2 hlen
    simp only [handleRowHighlighted]
    rw [if_neg h1, if_pos h2]
    rcases hsp : splitBar key with _ | ⟨a, _ | ⟨b, _ | ⟨c, rest⟩⟩⟩
    · exact absurd hsp (hnil key)
    · rfl
    · exact absurd (by rw [hsp]; rfl : (splitBar key).length = 2) hlen
    · rfl
  · intro key lp pp h2 hsplit hlook
    have h1 : key ≠ [] := by
      intro h
      subst h
      simp [splitBar] at hsplit
    simp only [handleRowHighlighted]
    rw [if_neg h1, if_pos h2, hsplit]
    dsimp only
    rw [hlook]
  · intro key lp pp specs h2 hsplit hlook hspec
    have h1 : key ≠ [] := by
      intro h
      subst h
      simp [splitBar] at hsplit
    simp only [handleRowHighlighted]
    rw [if_neg h1, if_pos h2, hsplit]
    dsimp only
    rw [hlook]
    dsimp only
    rw [hspec]

theorem layer_row_selection_error_behavior_witness :
    layerHighlighted ⟨[]⟩ Option.none (some "foo|bar".toList) = .error "AttributeError" ∧
    handleRowHighlighted ⟨[]⟩ (some "foo|bar".toList) = .error "AttributeError" :=
  ⟨(layer_row_selection_error_behavior ⟨[]⟩ Option.none).2.2.2.1
      "foo|bar".toList "foo".toList "bar".toList (by decide) (by decide) rfl,
    (layer_row_selection_error_behavior ⟨[]⟩ Option.none).2.2.2.2.2.2.2.2.1
      "foo|bar".toList "foo".toList "bar".toList (by decide) (by decide) rfl⟩

/-- C10: a frame change to 0 is silently dropped — the timeline handler posts
no message for a falsy slider value and the app handler returns early on a
falsy frame, so the values table is left untouched and a frame-dependent
state is never re-resolved at frame 0 — while any non-zero frame change
posts the message and propagates the frame to the values table. -/
theorem frame_zero_dropped :
    (timelineFrameChanged 0 = Option.none) ∧
    (∀ f : Int, f ≠ 0 → timelineFrameChanged f = some f) ∧
    (∀ (st : DisplayState) (t : UsdTable), frameEvent st t 0 = t) ∧
    (∀ (st : DisplayState) (t : UsdTable) (f : Int), f ≠ 0 →
      (frameEvent st t f).frame = f) := by
  refine ⟨rfl, ?_, ?_, ?_⟩
  · intro f hf
    unfold timelineFrameChanged
    rw [if_neg hf]
  · intro st t
    rfl
  · intro st t f hf
    show (match timelineFrameChanged f with
      | Option.none => t
      | some fr => appFrameChanged st t fr).frame = f
    rw [show timelineFrameChanged f = some f from by
      unfold timelineFrameChanged; rw [if_neg hf]]
    show (appFrameChanged st t f).frame = f
    unfold appFrameChanged
    rw [if_neg hf]
    by_cases ht : t.frame = f
    · rw [if_pos ht]
      exact ht
    · rw [if_neg ht]
      rw [watchFrame_frame]

theorem frame_zero_dropped_witness :
    timelineFrameChanged 24 = some 24 ∧
    (frameEvent .noValue ⟨[], [], 1, false⟩ 24).frame = 24 :=
  ⟨frame_zero_dropped.2.1 24 (by decide),
    frame_zero_dropped.2.2.2 .noValue ⟨[], [], 1, false⟩ 24 (by decide)⟩

end UsdInspect
